import Mathlib

/-!
Shallow embedding of the call-trace normalization and gas-attribution engine
of the GasProfileTab component (src/unnamed/part_000).  Each definition is
translated from the TypeScript source; JavaScript dynamic values are modelled
by small inductive types covering the shapes the code distinguishes.
-/

namespace GasProfile

/-- Model of a JavaScript value as it may appear in a gas field of a trace
node: `undef`/`null` are the two nullish values skipped by the nullish
coalescing operator, `num` is a finite number, `nan` covers the non-finite
numbers (NaN and the infinities, all rejected by `Number.isFinite`), and
`str` is a string. -/
inductive JVal where
  | undef
  | null
  | num (q : ℚ)
  | nan
  | str (s : String)
deriving DecidableEq

/-- A JavaScript value is nullish when it is `undefined` or `null`. -/
def isNullish : JVal → Bool
  | .undef => true
  | .null => true
  | _ => false

/-- Model of the JavaScript nullish coalescing operator `a ?? b`. -/
def jsCoalesce (a b : JVal) : JVal :=
  if isNullish a then b else a

/-- Whitespace test used by the trimming step of JavaScript string-to-number
coercion; modelled on the ASCII whitespace characters. -/
def jsWS (c : Char) : Bool :=
  c = ' ' ∨ c = '\t' ∨ c = '\n' ∨ c = '\r'

/-- Trim leading and trailing whitespace from a character list. -/
def listTrim (cs : List Char) : List Char :=
  ((cs.dropWhile jsWS).reverse.dropWhile jsWS).reverse

/-- Strip an optional leading sign, returning whether the sign was minus. -/
def stripSign (cs : List Char) : Bool × List Char :=
  match cs with
  | [] => (false, [])
  | c :: r =>
    if c = '-' then (true, r)
    else if c = '+' then (false, r)
    else (false, c :: r)

/-- Modelled from JavaScript `Number(string)` restricted to the fragment the
engine exercises: the whitespace-trimmed empty string is 0, an optionally
signed run of decimal digits is its integer value, and every other string is
not a finite number (`none` stands for NaN). -/
def strToNumber (s : String) : Option ℚ :=
  let t := listTrim s.data
  if t = [] then some 0
  else
    let p := stripSign t
    if p.2 ≠ [] ∧ p.2.all Char.isDigit then
      let n : ℕ := p.2.foldl (fun a c => a * 10 + (c.toNat - 48)) 0
      some (if p.1 then -(n : ℚ) else (n : ℚ))
    else none

/-- Model of JavaScript `Number(v)`: `none` stands for a non-finite result
(the values `Number.isFinite` rejects). -/
def toNumber : JVal → Option ℚ
  | .undef => none
  | .null => some 0
  | .num q => some q
  | .nan => none
  | .str s => strToNumber s

/-- The numeric coercion with NaN defaulted to 0, as in
`Number.isFinite(n) ? n : 0`. -/
def numOrZero (v : JVal) : ℚ :=
  match toNumber v with
  | some q => q
  | none => 0

/-- A trace node as the component receives it: the optional string fields of
the decoded shape, the three synonymous gas fields, and the two possible
child-list fields.  `none` on a string field stands for an absent (or
nullish) field, `none` on a list field for a field that is absent or not an
array. -/
inductive TraceNode where
  | mk (functionName signature functionSelector inputRaw input : Option String)
       (gasUsed gas_used gas : JVal)
       (children calls : Option (List TraceNode))

def TraceNode.functionName : TraceNode → Option String
  | .mk v _ _ _ _ _ _ _ _ _ => v

def TraceNode.signature : TraceNode → Option String
  | .mk _ v _ _ _ _ _ _ _ _ => v

def TraceNode.functionSelector : TraceNode → Option String
  | .mk _ _ v _ _ _ _ _ _ _ => v

def TraceNode.inputRaw : TraceNode → Option String
  | .mk _ _ _ v _ _ _ _ _ _ => v

def TraceNode.input : TraceNode → Option String
  | .mk _ _ _ _ v _ _ _ _ _ => v

def TraceNode.gasUsed : TraceNode → JVal
  | .mk _ _ _ _ _ v _ _ _ _ => v

def TraceNode.gas_used : TraceNode → JVal
  | .mk _ _ _ _ _ _ v _ _ _ => v

def TraceNode.gas : TraceNode → JVal
  | .mk _ _ _ _ _ _ _ v _ _ => v

def TraceNode.children : TraceNode → Option (List TraceNode)
  | .mk _ _ _ _ _ _ _ _ v _ => v

def TraceNode.calls : TraceNode → Option (List TraceNode)
  | .mk _ _ _ _ _ _ _ _ _ v => v

/-- JavaScript truthiness of an optional string field: absent and the empty
string are falsy, every other string is truthy. -/
def optTruthy (o : Option String) : Bool :=
  match o with
  | none => false
  | some s => decide (s ≠ "")

/-- Model of `String(s).split("(")[0]`: the text up to (not including) the
first opening parenthesis. -/
def beforeParen (s : String) : String :=
  ⟨s.data.takeWhile (fun c => c != '(')⟩

/-- Model of `s.slice(0, n)`: the first `n` characters of `s`. -/
def strTake (s : String) (n : ℕ) : String :=
  ⟨s.data.take n⟩

/-- Translation of `functionDisplay` (src/unnamed/part_000 lines 16-23). -/
def functionDisplay (t : TraceNode) : String :=
  if optTruthy t.functionName then beforeParen (t.functionName.getD "")
  else if optTruthy t.functionSelector then t.functionSelector.getD ""
  else
    let raw := t.inputRaw.or t.input
    if optTruthy raw ∧ raw ≠ some "0x" then strTake (raw.getD "") 10
    else if optTruthy raw = false ∨ raw = some "0x" then "fallback()"
    else "unknown"

/-- Translation of `nameFromSignature` (lines 25-29): the regex
`^([^(]+)` matches exactly when the string is non-empty and does not start
with an opening parenthesis, and its first group is the prefix before the
first parenthesis. -/
def nameFromSignature (sig : Option String) : Option String :=
  if optTruthy sig = false then none
  else
    let p := beforeParen (sig.getD "")
    if p = "" then none else some p

/-- Translation of `gasUsedNum` (lines 45-49):
`node?.gasUsed ?? node?.gas_used ?? node?.gas` coerced with `Number`,
defaulting to 0 when not finite. -/
def gasUsedNum (t : TraceNode) : ℚ :=
  numOrZero (jsCoalesce t.gasUsed (jsCoalesce t.gas_used t.gas))

/-- The base part of the label computed inside `labelFromNode`
(lines 31-43). -/
def labelBase (node : TraceNode) : String :=
  if optTruthy node.signature then
    if optTruthy node.functionName then beforeParen (node.functionName.getD "")
    else if optTruthy (nameFromSignature node.signature) then
      (nameFromSignature node.signature).getD ""
    else functionDisplay node
  else functionDisplay node

/-- Display form of a gas number in a template literal; the engine only ever
interpolates integer gas values, non-integers are shown via the raw rational
printer. -/
def ratDisplay (q : ℚ) : String :=
  if q.den = 1 then toString q.num else toString q

/-- Translation of `labelFromNode` (lines 31-43): the base label followed by
the gas amount. -/
def labelFromNode (node : TraceNode) : String :=
  labelBase node ++ " - " ++ ratDisplay (gasUsedNum node) ++ " GAS"

/-- Translation of `childrenOf` (lines 51-56): a present (array) `children`
field wins, else a present `calls` field, else the empty list.  The dynamic
guard for non-object arguments cannot arise in the typed model. -/
def childrenOf (t : TraceNode) : List TraceNode :=
  match t.children with
  | some l => l
  | none =>
    match t.calls with
    | some l => l
    | none => []

/-- The `functionSelector` computed by `convertRawCallTrace` (lines 58-68):
the first 10 characters of `input` when `input` is a string starting with
`0x`, else undefined. -/
def selectorOfInput (inp : Option String) : Option String :=
  match inp with
  | some s => if s.startsWith "0x" then some (strTake s 10) else none
  | none => none

mutual

/-- Translation of `convertRawCallTrace` (lines 58-68): normalizes one raw
call record into the decoded node shape, recursing over `calls`; the output
always carries an array `children` field (empty when `calls` is absent or
not an array) and no `calls` field. -/
def convertRawCallTrace : TraceNode → TraceNode
  | .mk _fn _sg _sel _ir inp gu g2 g _ch (some ca) =>
    .mk none none (selectorOfInput inp) inp none
       (jsCoalesce gu (jsCoalesce g2 g)) .undef .undef
       (some (convertRawList ca)) none
  | .mk _fn _sg _sel _ir inp gu g2 g _ch none =>
    .mk none none (selectorOfInput inp) inp none
       (jsCoalesce gu (jsCoalesce g2 g)) .undef .undef
       (some []) none

/-- Pointwise `convertRawCallTrace` on a list of records, as performed by
`t.calls.map(convertRawCallTrace)`. -/
def convertRawList : List TraceNode → List TraceNode
  | [] => []
  | t :: ts => convertRawCallTrace t :: convertRawList ts

end

/-- The decoded-trace input value as the component distinguishes it:
falsy/absent, an array of nodes, a non-null object with an object `.root`
field, or a bare node object. -/
inductive DecodedTree where
  | absent
  | arr (l : List TraceNode)
  | rootObj (root : TraceNode)
  | bare (node : TraceNode)

/-- JavaScript truthiness of the decoded-trace value: only the absent/falsy
case is falsy, every object is truthy. -/
def decodedTruthy : DecodedTree → Bool
  | .absent => false
  | _ => true

/-- Translation of `normalizeRoot` (lines 70-75). -/
def normalizeRoot : DecodedTree → List TraceNode
  | .absent => []
  | .arr l => l
  | .rootObj r => [r]
  | .bare n => [n]

/-- The raw `responseData?.transaction?.callTrace` value: an array, a single
truthy record, or a nullish/falsy value. -/
inductive RawTrace where
  | absent
  | arr (l : List TraceNode)
  | single (t : TraceNode)

/-- The list of raw fallback records,
`Array.isArray(raw) ? raw : raw ? [raw] : []` (line 98). -/
def rawTraceList : RawTrace → List TraceNode
  | .arr l => l
  | .single t => [t]
  | .absent => []

/-- JavaScript truthiness of an object: every object is truthy; this is the
predicate `.filter(Boolean)` applies to the converted records (line 99). -/
def objTruthy (_ : TraceNode) : Bool := true

/-- The root-resolution step of `nivoData` (lines 92-100): the decoded roots,
with fallback to the normalized raw call-trace records when the decoded
value is falsy or yields no roots. -/
def roots (decoded : DecodedTree) (raw : RawTrace) : List TraceNode :=
  let decodedRoots := normalizeRoot decoded
  if decodedTruthy decoded = false ∨ decodedRoots.length = 0 then
    ((rawTraceList raw).map convertRawCallTrace).filter objTruthy
  else decodedRoots

/-- Canonical output node of the engine: `id`, an optional `value` and an
optional `children` field (a `none` field is omitted from the object). -/
inductive HierarchyNode where
  | mk (id : String) (value : Option ℚ) (children : Option (List HierarchyNode))

def HierarchyNode.id : HierarchyNode → String
  | .mk v _ _ => v

def HierarchyNode.value : HierarchyNode → Option ℚ
  | .mk _ v _ => v

def HierarchyNode.children : HierarchyNode → Option (List HierarchyNode)
  | .mk _ _ v => v

/-- The node assembled by one step of `normalize` (lines 102-107): label,
gas value, and the children field attached only when the converted children
list is non-empty. -/
def buildNode (t : TraceNode) (kids : List HierarchyNode) : HierarchyNode :=
  if kids.length > 0 then .mk (labelFromNode t) (some (gasUsedNum t)) (some kids)
  else .mk (labelFromNode t) (some (gasUsedNum t)) none

mutual

/-- Translation of `normalize` (lines 102-107), the recursive tree builder. -/
def normalize : TraceNode → HierarchyNode
  | .mk fn sg sel ir inp gu g2 g (some ch) ca =>
    buildNode (.mk fn sg sel ir inp gu g2 g (some ch) ca) (normalizeList ch)
  | .mk fn sg sel ir inp gu g2 g none (some ca) =>
    buildNode (.mk fn sg sel ir inp gu g2 g none (some ca)) (normalizeList ca)
  | .mk fn sg sel ir inp gu g2 g none none =>
    buildNode (.mk fn sg sel ir inp gu g2 g none none) []

/-- Pointwise `normalize` on a children list. -/
def normalizeList : List TraceNode → List HierarchyNode
  | [] => []
  | t :: ts => normalize t :: normalizeList ts

end

/-- Translation of the tail of `nivoData` (lines 109-110): convert every
root and wrap in a synthetic empty-id node unless there is exactly one. -/
def nivoData (decoded : DecodedTree) (raw : RawTrace) : HierarchyNode :=
  let children := (roots decoded raw).map normalize
  match children with
  | [c] => c
  | cs => HierarchyNode.mk "" none (some cs)

mutual

/-- Translation of `getDepth` (lines 116-119), with the accumulator starting
at 1 at the call site. -/
def getDepth : HierarchyNode → ℕ → ℕ
  | .mk _ _ none, d => d
  | .mk _ _ (some cs), d => if cs.length = 0 then d else getDepthList cs (d + 1)

/-- The spread `Math.max(...node.children.map(c => getDepth(c, depth + 1)))`
over a children list; 0 on the empty list (which the caller excludes). -/
def getDepthList : List HierarchyNode → ℕ → ℕ
  | [], _ => 0
  | c :: cs, d => max (getDepth c d) (getDepthList cs d)

end

/-- Drop the first occurrence of the hash character from a character list;
JavaScript `hex.replace("#", "")` replaces only the first occurrence. -/
def dropFirstHash : List Char → List Char
  | [] => []
  | c :: r => if c = '#' then r else c :: dropFirstHash r

/-- Model of `hex.replace("#", "")` (line 80). -/
def removeFirstHash (s : String) : String :=
  ⟨dropFirstHash s.data⟩

/-- Value of a hexadecimal digit character, both cases accepted. -/
def hexDigitToNat (c : Char) : Option ℕ :=
  if '0' ≤ c ∧ c ≤ '9' then some (c.toNat - 48)
  else if 'a' ≤ c ∧ c ≤ 'f' then some (c.toNat - 87)
  else if 'A' ≤ c ∧ c ≤ 'F' then some (c.toNat - 55)
  else none

/-- Value of the longest hexadecimal-digit prefix of a character list;
`none` (NaN) when no digit was consumed, as in `parseInt` with radix 16. -/
def hexPrefixVal : List Char → ℕ → Bool → Option ℕ
  | [], acc, seen => if seen then some acc else none
  | c :: r, acc, seen =>
    match hexDigitToNat c with
    | some d => hexPrefixVal r (acc * 16 + d) true
    | none => if seen then some acc else none

/-- Strip the optional `0x`/`0X` prefix that `parseInt` accepts with
radix 16. -/
def strip0x (cs : List Char) : List Char :=
  match cs with
  | c0 :: c1 :: r => if c0 = '0' ∧ (c1 = 'x' ∨ c1 = 'X') then r else c0 :: c1 :: r
  | l => l

/-- Model of JavaScript `parseInt(s, 16)`: trim whitespace, accept an
optional sign and an optional `0x` prefix, then take the value of the
longest hexadecimal-digit prefix; `none` stands for NaN. -/
def parseIntHex (s : String) : Option ℤ :=
  let t := listTrim s.data
  let p := stripSign t
  match hexPrefixVal (strip0x p.2) 0 false with
  | none => none
  | some n => some (if p.1 then -(n : ℤ) else (n : ℤ))

/-- The unsigned 32-bit pattern of the parsed value, i.e. the bit pattern of
the `num` binding of `lighten` (line 81) after the implicit `ToInt32`
conversion performed by the bitwise operators (NaN converts to 0). -/
def hexPattern (hex : String) : ℕ :=
  match parseIntHex (removeFirstHash hex) with
  | none => 0
  | some n => ((n % 4294967296 + 4294967296) % 4294967296).toNat

/-- The three 8-bit channels extracted in `lighten` (lines 81-84):
`(num >> 16) & 0xff`, `(num >> 8) & 0xff` and `num & 0xff` on the 32-bit
two's-complement pattern of the parsed value. -/
def hexChannels (hex : String) : ℕ × ℕ × ℕ :=
  (hexPattern hex / 65536 % 256, hexPattern hex / 256 % 256, hexPattern hex % 256)

/-- JavaScript `Math.round(x)`, which is `⌊x + 1/2⌋`. -/
def jsRound (q : ℚ) : ℤ :=
  ⌊q + 1 / 2⌋

/-- One blended channel of `lighten` (lines 85-87):
`Math.round(c + (255 - c) * amount)`. -/
def lightenChannel (c : ℕ) (amount : ℚ) : ℤ :=
  jsRound ((c : ℚ) + (255 - (c : ℚ)) * amount)

/-- The three blended channels of `lighten`. -/
def lightenChannels (hex : String) (amount : ℚ) : ℤ × ℤ × ℤ :=
  (lightenChannel (hexChannels hex).1 amount,
   lightenChannel (hexChannels hex).2.1 amount,
   lightenChannel (hexChannels hex).2.2 amount)

/-- The sixteen lowercase digits used by `Number.prototype.toString(16)`. -/
def hexDigits : List Char :=
  "0123456789abcdef".data

/-- The lowercase hexadecimal digit character of a value below 16. -/
def hexCharDigit (d : ℕ) : Char :=
  hexDigits.getD d '0'

/-- Fuel-driven digit extraction for `n.toString(16)`: one digit per fuel
step suffices because the value shrinks by a factor 16 each step; fuel `n`
is always enough, and the fuel-exhausted fallback agrees with the one-digit
case. -/
def natToHexDigitsAux : ℕ → ℕ → List Char
  | 0, n => [hexCharDigit n]
  | fuel + 1, n =>
    if n < 16 then [hexCharDigit n]
    else natToHexDigitsAux fuel (n / 16) ++ [hexCharDigit (n % 16)]

/-- Digit list of `n.toString(16)` for a natural number. -/
def natToHexDigits (n : ℕ) : List Char :=
  natToHexDigitsAux n n

/-- Model of `v.toString(16)` on an integer. -/
def intToHexStr (v : ℤ) : String :=
  if v < 0 then "-" ++ ⟨natToHexDigits v.natAbs⟩ else ⟨natToHexDigits v.toNat⟩

/-- Model of `s.padStart(2, "0")`. -/
def padStart2 (s : String) : String :=
  if s.data.length < 2 then ⟨List.replicate (2 - s.data.length) '0' ++ s.data⟩ else s

/-- The per-channel printer `toHex` of `lighten` (line 88):
`v.toString(16).padStart(2, "0")`. -/
def toHexPad2 (v : ℤ) : String :=
  padStart2 (intToHexStr v)

/-- Translation of `lighten` (lines 78-89). -/
def lighten (hex : String) (amount : ℚ) : String :=
  "#" ++ toHexPad2 (lightenChannels hex amount).1
      ++ toHexPad2 (lightenChannels hex amount).2.1
      ++ toHexPad2 (lightenChannels hex amount).2.2

/-- The blend factor of the `colors` callback (lines 153-158):
`Math.min(0.12 * depth, 0.8)`, with the decimal literals modelled as exact
rationals and the renderer-supplied depth a natural number. -/
def tOfDepth (depth : ℕ) : ℚ :=
  min ((12 / 100 : ℚ) * (depth : ℚ)) (8 / 10)

/-- The base color of the `colors` callback (line 154). -/
def baseColor : String := "#17BEBB"

/-- The color the `colors` callback assigns to a node of the given renderer
depth (lines 153-158). -/
def colorAtDepth (depth : ℕ) : String :=
  lighten baseColor (tOfDepth depth)

mutual

/-- Modelled from the spec: the number of nodes on the longest root-to-leaf
path of a tree, counting the root as 1; a node with no `children` field or
with an empty children list is a leaf. -/
def longestPathCount : HierarchyNode → ℕ
  | .mk _ _ none => 1
  | .mk _ _ (some cs) => if cs.length = 0 then 1 else 1 + longestPathListMax cs

/-- Maximum `longestPathCount` over a list of nodes, 0 on the empty list. -/
def longestPathListMax : List HierarchyNode → ℕ
  | [] => 0
  | c :: cs => max (longestPathCount c) (longestPathListMax cs)

end

/-- Recognizer for a `#`-prefixed six-digit lowercase hex color string. -/
def isLowerHex6 (s : String) : Bool :=
  match s.data with
  | c0 :: cs => c0 = '#' ∧ cs.length = 6 ∧ cs.all (fun c => hexDigits.contains c)
  | [] => false

/-- A node with no `signature` but with both `functionName` and
`functionSelector` present. -/
def c1Node : TraceNode :=
  .mk (some "foo") none (some "0x12345678") none none .undef .undef .undef none none

/-- A node whose input data is present but is the empty string, with no
selector and no name fields. -/
def c9Node : TraceNode :=
  .mk none none none none (some "") .undef .undef .undef none none

/-- A raw call record used to exercise the fallback path. -/
def rawRec : TraceNode :=
  .mk none none none none (some "0xa9059cbb7700") (.num 100) .undef .undef none none

/-- A gas-only leaf record. -/
def leafA : TraceNode := .mk none none none none none (.num 1) .undef .undef none none

/-- A second gas-only leaf record. -/
def leafB : TraceNode := .mk none none none none none (.num 2) .undef .undef none none

/-- A node with one child under the `children` field. -/
def parentNode : TraceNode := .mk none none none none none (.num 3) .undef .undef (some [leafA]) none

/-- Node with only a string `gasUsed` that is not numeric. -/
def gasNodeStr : TraceNode := .mk none none none none none (.str "abc") .undef .undef none none

/-- Node with only a numeric `gas_used`. -/
def gasNodeSnake : TraceNode := .mk none none none none none .undef (.num 21000) .undef none none

/-- Node with both `gasUsed` and `gas_used` set. -/
def gasNodeBoth : TraceNode := .mk none none none none none (.num 21000) (.num 1) .undef none none

/-- Node carrying a negative finite gas value. -/
def gasNodeNeg : TraceNode := .mk none none none none none (.num (-5)) .undef .undef none none

/-! Claim-level results. -/

/-- C1 counterexample: a node with no `signature` but with a
`functionSelector` does not get the selector as its label base when a
`functionName` is also present — `functionDisplay` consults `functionName`
first, so the base is `"foo"`, not `"0x12345678"`. -/
theorem labelBase_functionName_over_selector_cex :
    optTruthy c1Node.signature = false ∧ c1Node.functionSelector = some "0x12345678" ∧
      labelBase c1Node = "foo" ∧ labelBase c1Node ≠ "0x12345678" := by
  refine ⟨rfl, rfl, by decide, by decide⟩

/-- C1 amended: for every node with no truthy `signature` and no truthy
`functionName` that has a truthy `functionSelector`, the label base is that
selector string verbatim, regardless of which input fields are present. -/
theorem labelBase_selector_verbatim (t : TraceNode) (sel : String)
    (hsig : optTruthy t.signature = false) (hfn : optTruthy t.functionName = false)
    (hsel : t.functionSelector = some sel) (hne : sel ≠ "") :
    labelBase t = sel := by
  simp only [labelBase, functionDisplay, hsig, hfn, hsel]
  simp [optTruthy, hne]

/-- Witness for the amended C1 at a concrete node carrying a selector and an
input field. -/
theorem labelBase_selector_verbatim_witness :
    labelBase (.mk none none (some "0xdeadbeef") (some "0x9900") none .undef .undef .undef none none) =
      "0xdeadbeef" :=
  labelBase_selector_verbatim _ "0xdeadbeef" (by decide) (by decide) rfl (by decide)

/-- C9 counterexample: a node with no `signature`, no `functionSelector` and
empty-string input — a shape rule 3 rejects (empty) and the spec's rule 4
rejects (present, not `"0x"`) — is labeled `"fallback()"`, not
`"unknown"`: the empty string is falsy in JavaScript. -/
theorem functionDisplay_empty_input_cex :
    functionDisplay c9Node = "fallback()" ∧ functionDisplay c9Node ≠ "unknown" := by
  refine ⟨by decide, by decide⟩

/-- C9 amended: the `"unknown"` branch is unreachable.  Every node with no
truthy `functionName` and no truthy `functionSelector` is labeled either
with the 10-character input slice (input truthy and different from `"0x"`)
or with `"fallback()"` (input falsy or exactly `"0x"`); in particular the
empty-string-input shape yields `"fallback()"`. -/
theorem functionDisplay_no_unknown (t : TraceNode)
    (hfn : optTruthy t.functionName = false) (hsel : optTruthy t.functionSelector = false) :
    (optTruthy (t.inputRaw.or t.input) = true ∧ t.inputRaw.or t.input ≠ some "0x" ∧
      functionDisplay t = strTake ((t.inputRaw.or t.input).getD "") 10)
    ∨ ((optTruthy (t.inputRaw.or t.input) = false ∨ t.inputRaw.or t.input = some "0x") ∧
      functionDisplay t = "fallback()") := by
  by_cases h1 : optTruthy (t.inputRaw.or t.input) = true ∧ t.inputRaw.or t.input ≠ some "0x"
  · exact Or.inl ⟨h1.1, h1.2, by simp [functionDisplay, hfn, hsel, h1.1, h1.2]⟩
  · refine Or.inr ⟨?_, ?_⟩
    · rcases not_and_or.mp h1 with h | h
      · exact Or.inl (by simpa using h)
      · exact Or.inr (not_not.mp h)
    · rcases not_and_or.mp h1 with h | h
      · have hx : optTruthy (t.inputRaw.or t.input) = false := by simpa using h
        simp [functionDisplay, hfn, hsel, hx]
      · have hx : t.inputRaw.or t.input = some "0x" := not_not.mp h
        simp [functionDisplay, hfn, hsel, hx]

/-- Witness for the amended C9 at a concrete node whose input is a hex
payload longer than 10 characters. -/
theorem functionDisplay_no_unknown_witness :
    (optTruthy ((TraceNode.mk none none none none (some "0xa9059cbb001122") .undef .undef .undef none none).inputRaw.or
        (TraceNode.mk none none none none (some "0xa9059cbb001122") .undef .undef .undef none none).input) = true ∧
      (TraceNode.mk none none none none (some "0xa9059cbb001122") .undef .undef .undef none none).inputRaw.or
        (TraceNode.mk none none none none (some "0xa9059cbb001122") .undef .undef .undef none none).input ≠ some "0x" ∧
      functionDisplay (TraceNode.mk none none none none (some "0xa9059cbb001122") .undef .undef .undef none none) =
        strTake (((TraceNode.mk none none none none (some "0xa9059cbb001122") .undef .undef .undef none none).inputRaw.or
          (TraceNode.mk none none none none (some "0xa9059cbb001122") .undef .undef .undef none none).input).getD "") 10)
    ∨ ((optTruthy ((TraceNode.mk none none none none (some "0xa9059cbb001122") .undef .undef .undef none none).inputRaw.or
        (TraceNode.mk none none none none (some "0xa9059cbb001122") .undef .undef .undef none none).input) = false ∨
      (TraceNode.mk none none none none (some "0xa9059cbb001122") .undef .undef .undef none none).inputRaw.or
        (TraceNode.mk none none none none (some "0xa9059cbb001122") .undef .undef .undef none none).input = some "0x") ∧
      functionDisplay (TraceNode.mk none none none none (some "0xa9059cbb001122") .undef .undef .undef none none) =
        "fallback()") :=
  functionDisplay_no_unknown _ (by decide) (by decide)

/-- Every converted record passes the `Boolean` filter: objects are truthy. -/
theorem filter_objTruthy (l : List TraceNode) : l.filter objTruthy = l := by
  induction l with
  | nil => rfl
  | cons t ts ih => simp [List.filter, objTruthy, ih]

/-- C4: whenever root resolution of the decoded value yields zero roots, the
engine falls back to the raw call-trace records (array, single record, or
zero records), each passed through the Node Shape Normalizer
`convertRawCallTrace` before being treated as a root. -/
theorem roots_fallback_on_empty_decoded (d : DecodedTree) (r : RawTrace)
    (h : normalizeRoot d = []) :
    roots d r = (rawTraceList r).map convertRawCallTrace := by
  simp [roots, h, filter_objTruthy]

/-- Witness for C4: the empty decoded array yields zero roots and the
fallback produces the normalized raw record. -/
theorem roots_fallback_witness :
    normalizeRoot (DecodedTree.arr []) = [] ∧
      roots (DecodedTree.arr []) (RawTrace.single rawRec) =
        (rawTraceList (RawTrace.single rawRec)).map convertRawCallTrace :=
  ⟨rfl, roots_fallback_on_empty_decoded _ _ rfl⟩

/-- C3: when the root-resolution step yields exactly one converted node the
final tree is that node with no wrapper; for any other number of roots the
final tree is a synthetic node with empty `id`, no `value` field, and the
converted roots, in order, as its children. -/
theorem nivoData_root_reconciliation (d : DecodedTree) (r : RawTrace) :
    (∀ n : HierarchyNode, (roots d r).map normalize = [n] → nivoData d r = n)
    ∧ (((roots d r).map normalize).length ≠ 1 →
        nivoData d r = HierarchyNode.mk "" none (some ((roots d r).map normalize))) := by
  constructor
  · intro n h
    simp [nivoData, h]
  · intro h
    rcases hm : (roots d r).map normalize with _ | ⟨c, _ | ⟨c2, cs⟩⟩
    · simp [nivoData, hm]
    · rw [hm] at h
      simp at h
    · simp [nivoData, hm]

/-- Witness for C3: a two-root forest is wrapped under the synthetic empty
id, and a one-root forest is returned unwrapped. -/
theorem nivoData_root_reconciliation_witness :
    nivoData (DecodedTree.arr [leafA, leafB]) .absent =
      HierarchyNode.mk "" none (some ((roots (DecodedTree.arr [leafA, leafB]) .absent).map normalize)) ∧
      nivoData (DecodedTree.bare leafA) .absent = normalize leafA :=
  ⟨(nivoData_root_reconciliation _ _).2 (by decide),
   (nivoData_root_reconciliation _ _).1 (normalize leafA) rfl⟩

/-- C10: when the decoded input yields zero roots and the raw fallback also
yields zero records, the output is exactly the synthetic root with empty
`id`, no `value` field and an explicit empty `children` list, and its depth
is 1. -/
theorem nivoData_empty_forest (d : DecodedTree) (r : RawTrace) (h : roots d r = []) :
    nivoData d r = HierarchyNode.mk "" none (some []) ∧ getDepth (nivoData d r) 1 = 1 := by
  have hm : (roots d r).map normalize = [] := by rw [h]; rfl
  refine ⟨by simp [nivoData, hm], ?_⟩
  simp [nivoData, hm, getDepth]

/-- Witness for C10 at the absent decoded tree and absent raw trace. -/
theorem nivoData_empty_forest_witness :
    nivoData .absent .absent = HierarchyNode.mk "" none (some []) ∧
      getDepth (nivoData .absent .absent) 1 = 1 :=
  nivoData_empty_forest .absent .absent rfl

/-- Pointwise normalization agrees with `List.map`. -/
theorem normalizeList_eq_map (l : List TraceNode) : normalizeList l = l.map normalize := by
  induction l with
  | nil => rfl
  | cons t ts ih => simp [normalizeList, ih]

/-- One step of the tree builder in terms of `childrenOf`. -/
theorem normalize_eq (t : TraceNode) :
    normalize t = buildNode t ((childrenOf t).map normalize) := by
  rcases t with ⟨fn, sg, sel, ir, inp, gu, g2, g, ch, ca⟩
  cases ch with
  | some l =>
    simp [normalize, childrenOf, TraceNode.children, TraceNode.calls, normalizeList_eq_map]
  | none =>
    cases ca with
    | some l =>
      simp [normalize, childrenOf, TraceNode.children, TraceNode.calls, normalizeList_eq_map]
    | none =>
      simp [normalize, childrenOf, TraceNode.children, TraceNode.calls, normalizeList_eq_map]

/-- C5: the output of the recursive build step carries a `children` field
exactly when the recursively converted children list is non-empty; an empty
list is omitted, never attached. -/
theorem normalize_children_iff_nonempty (t : TraceNode) :
    ((childrenOf t).map normalize = [] → (normalize t).children = none)
    ∧ ((childrenOf t).map normalize ≠ [] →
        (normalize t).children = some ((childrenOf t).map normalize)) := by
  constructor
  · intro h
    rw [normalize_eq, h]
    rfl
  · intro h
    rw [normalize_eq]
    have hl : 0 < (childrenOf t).length := by simpa using List.length_pos.2 h
    simp [buildNode, hl, HierarchyNode.children]

/-- Witness for C5 at a one-child node. -/
theorem normalize_children_witness :
    (childrenOf parentNode).map normalize ≠ [] ∧
      (normalize parentNode).children = some ((childrenOf parentNode).map normalize) := by
  have hne : (childrenOf parentNode).map normalize ≠ [] := by
    have hm : (childrenOf parentNode).map normalize = [normalize leafA] := rfl
    rw [hm]
    exact List.cons_ne_nil _ _
  exact ⟨hne, (normalize_children_iff_nonempty parentNode).2 hne⟩

/-- Every node accounts for at least itself on the longest path. -/
theorem one_le_longestPathCount (t : HierarchyNode) : 1 ≤ longestPathCount t := by
  rcases t with ⟨i, v, ch⟩
  cases ch with
  | none => simp [longestPathCount]
  | some cs =>
    simp only [longestPathCount]
    split <;> omega

mutual

/-- The accumulator form of `getDepth` measures the longest path: starting
at `d` it returns `d - 1` plus the node count of the longest root-to-leaf
path. -/
theorem getDepth_succ_eq (n : HierarchyNode) (d : ℕ) :
    getDepth n d + 1 = d + longestPathCount n := by
  rcases n with ⟨i, v, ch⟩
  cases ch with
  | none => simp [getDepth, longestPathCount]
  | some cs =>
    by_cases hcs : cs = []
    · subst hcs
      simp [getDepth, longestPathCount]
    · have hlen : cs.length ≠ 0 := by
        simpa using hcs
      have hrec := getDepthList_succ_eq cs (d + 1) hcs
      simp only [getDepth, longestPathCount, if_neg hlen]
      omega

/-- List version of `getDepth_succ_eq`, for non-empty children lists. -/
theorem getDepthList_succ_eq (cs : List HierarchyNode) (d : ℕ) (h : cs ≠ []) :
    getDepthList cs d + 1 = d + longestPathListMax cs := by
  match cs with
  | [] => exact absurd rfl h
  | [c] =>
    have h1 := getDepth_succ_eq c d
    simp only [getDepthList, longestPathListMax]
    omega
  | c :: c2 :: cs2 =>
    have h1 := getDepth_succ_eq c d
    have h2 := getDepthList_succ_eq (c2 :: cs2) d (List.cons_ne_nil _ _)
    simp only [getDepthList, longestPathListMax] at h2 ⊢
    omega

end

/-- C6: the computed depth of every tree equals the number of nodes on the
longest root-to-leaf path, counting the root as depth 1, and is therefore
at least 1; nodes with no `children` field or an empty list are leaves. -/
theorem getDepth_eq_longestPathCount (t : HierarchyNode) :
    getDepth t 1 = longestPathCount t ∧ 1 ≤ getDepth t 1 := by
  have h := getDepth_succ_eq t 1
  have h2 := one_le_longestPathCount t
  omega

/-- The blend factor at depth 0 is exactly 0. -/
theorem tOfDepth_zero : tOfDepth 0 = 0 := by
  unfold tOfDepth
  norm_num

/-- Rounding a natural channel value is the identity. -/
theorem jsRound_natCast (c : ℕ) : jsRound (c : ℚ) = c := by
  unfold jsRound
  have h1 : ((c : ℚ) + 1 / 2) = ((c : ℤ) : ℚ) + 1 / 2 := by push_cast; ring
  rw [h1, Int.floor_int_add]
  norm_num

/-- Blending with amount 0 leaves a channel unchanged. -/
theorem lightenChannel_zero (c : ℕ) : lightenChannel c 0 = c := by
  unfold lightenChannel
  have h : ((c : ℚ) + (255 - (c : ℚ)) * 0) = (c : ℚ) := by ring
  rw [h, jsRound_natCast]

/-- At amount 0 the blended channels are the extracted channels. -/
theorem lightenChannels_zero (hex : String) :
    lightenChannels hex 0 =
      (((hexChannels hex).1 : ℤ), ((hexChannels hex).2.1 : ℤ), ((hexChannels hex).2.2 : ℤ)) := by
  unfold lightenChannels
  rw [lightenChannel_zero, lightenChannel_zero, lightenChannel_zero]

/-- Exhausted fuel agrees with the one-digit case below 16. -/
theorem natToHexDigitsAux_small (fuel n : ℕ) (h : n < 16) :
    natToHexDigitsAux fuel n = [hexCharDigit n] := by
  cases fuel with
  | zero => rfl
  | succ k => simp [natToHexDigitsAux, h]

/-- Printing an 8-bit value always yields exactly the two hexadecimal
digits of its two nibbles, the high nibble padded to `0` when absent. -/
theorem toHexPad2_two (x : ℕ) (hx : x < 256) :
    toHexPad2 (x : ℤ) = ⟨[hexCharDigit (x / 16), hexCharDigit (x % 16)]⟩ := by
  unfold toHexPad2 intToHexStr
  rw [if_neg (by omega), Int.toNat_natCast]
  by_cases h16 : x < 16
  · have hd : natToHexDigits x = [hexCharDigit x] := natToHexDigitsAux_small x x h16
    rw [hd]
    have hdiv : x / 16 = 0 := by omega
    have hmod : x % 16 = x := by omega
    rw [hdiv, hmod]
    simp [padStart2]
    rfl
  · obtain ⟨k, rfl⟩ : ∃ k, x = k + 1 := ⟨x - 1, by omega⟩
    have hd : natToHexDigits (k + 1) =
        [hexCharDigit ((k + 1) / 16), hexCharDigit ((k + 1) % 16)] := by
      show natToHexDigitsAux (k + 1) (k + 1) = _
      rw [natToHexDigitsAux, if_neg (by omega)]
      rw [natToHexDigitsAux_small k ((k + 1) / 16) (by omega)]
      rfl
    rw [hd]
    simp [padStart2]

/-- Everything the depth-0 identity proof needs about one lowercase hex
digit character: its parsed nibble value, that printing that nibble gives
the character back, and that it is not whitespace, a sign, or an `x`. -/
theorem lowerHexChar_facts (c : Char) (h : hexDigits.contains c = true) :
    ∃ d, hexDigitToNat c = some d ∧ d < 16 ∧ hexCharDigit d = c ∧
      jsWS c = false ∧ c ≠ '-' ∧ c ≠ '+' ∧ c ≠ 'x' ∧ c ≠ 'X' := by
  have hm : c ∈ hexDigits := by simpa using h
  have hall : ∀ x ∈ hexDigits,
      (match hexDigitToNat x with
        | some d => decide (d < 16) && (hexCharDigit d == x) && !(jsWS x) &&
            !(x == '-') && !(x == '+') && !(x == 'x') && !(x == 'X')
        | none => false) = true := by decide
  have hc := hall c hm
  cases hd : hexDigitToNat c with
  | none =>
    rw [hd] at hc
    exact absurd hc (by simp)
  | some d =>
    rw [hd] at hc
    simp only [Bool.and_eq_true, decide_eq_true_eq, beq_iff_eq, Bool.not_eq_true',
      beq_eq_false_iff_ne] at hc
    exact ⟨d, rfl, hc.1.1.1.1.1.1, hc.1.1.1.1.1.2, hc.1.1.1.1.2, hc.1.1.1.2, hc.1.1.2,
      hc.1.2, hc.2⟩

/-- Parsing a six-character list of hexadecimal digits (no whitespace, no
sign, second character not an `x`) yields its value. -/
theorem parseIntHex_six (c1 c2 c3 c4 c5 c6 : Char) (d1 d2 d3 d4 d5 d6 : ℕ)
    (h1 : hexDigitToNat c1 = some d1) (h2 : hexDigitToNat c2 = some d2)
    (h3 : hexDigitToNat c3 = some d3) (h4 : hexDigitToNat c4 = some d4)
    (h5 : hexDigitToNat c5 = some d5) (h6 : hexDigitToNat c6 = some d6)
    (w1 : jsWS c1 = false) (w6 : jsWS c6 = false)
    (m1 : c1 ≠ '-') (p1 : c1 ≠ '+') (x2 : c2 ≠ 'x') (X2 : c2 ≠ 'X') :
    parseIntHex ⟨[c1, c2, c3, c4, c5, c6]⟩ =
      some ((((((d1 * 16 + d2) * 16 + d3) * 16 + d4) * 16 + d5) * 16 + d6 : ℕ) : ℤ) := by
  have htrim : listTrim [c1, c2, c3, c4, c5, c6] = [c1, c2, c3, c4, c5, c6] := by
    simp [listTrim, List.dropWhile, w1, w6]
  have hsign : stripSign [c1, c2, c3, c4, c5, c6] = (false, [c1, c2, c3, c4, c5, c6]) := by
    simp [stripSign, m1, p1]
  have h0x : strip0x [c1, c2, c3, c4, c5, c6] = [c1, c2, c3, c4, c5, c6] := by
    have : ¬(c1 = '0' ∧ (c2 = 'x' ∨ c2 = 'X')) := by
      rintro ⟨-, hx | hx⟩
      · exact x2 hx
      · exact X2 hx
    simp [strip0x, this]
  have htrim' : listTrim (String.mk [c1, c2, c3, c4, c5, c6]).data =
      [c1, c2, c3, c4, c5, c6] := htrim
  simp only [parseIntHex]
  rw [htrim', hsign]
  dsimp only
  rw [h0x]
  simp only [hexPrefixVal, h1, h2, h3, h4, h5, h6]
  norm_num

/-- C7 amended: on a `#`-prefixed six-digit lowercase hex base color the
gradient at depth 0 returns the base color verbatim (blend factor 0 leaves
every channel unchanged and the printer re-emits the same lowercase
digits); on uppercase digits only the case of the output differs. -/
theorem lighten_depth_zero_identity (hex : String) (h : isLowerHex6 hex = true) :
    lighten hex (tOfDepth 0) = hex := by
  obtain ⟨l⟩ := hex
  cases l with
  | nil => simp [isLowerHex6] at h
  | cons c0 cs =>
    rw [show isLowerHex6 ⟨c0 :: cs⟩ = decide (c0 = '#' ∧ cs.length = 6 ∧
      cs.all (fun c => hexDigits.contains c)) from rfl] at h
    rw [decide_eq_true_iff] at h
    obtain ⟨hc0, hlen, hall⟩ := h
    subst hc0
    obtain ⟨c1, c2, c3, c4, c5, c6, rfl⟩ :
        ∃ c1 c2 c3 c4 c5 c6, cs = [c1, c2, c3, c4, c5, c6] := by
      match cs, hlen with
      | [c1, c2, c3, c4, c5, c6], _ => exact ⟨c1, c2, c3, c4, c5, c6, rfl⟩
    simp only [List.all_cons, List.all_nil, Bool.and_true, Bool.and_eq_true] at hall
    obtain ⟨k1, ⟨k2, ⟨k3, ⟨k4, ⟨k5, k6⟩⟩⟩⟩⟩ := hall
    obtain ⟨d1, hd1, hb1, hc1, hw1, hm1, hp1, -, -⟩ := lowerHexChar_facts c1 k1
    obtain ⟨d2, hd2, hb2, hc2, -, -, -, hx2, hX2⟩ := lowerHexChar_facts c2 k2
    obtain ⟨d3, hd3, hb3, hc3, -, -, -, -, -⟩ := lowerHexChar_facts c3 k3
    obtain ⟨d4, hd4, hb4, hc4, -, -, -, -, -⟩ := lowerHexChar_facts c4 k4
    obtain ⟨d5, hd5, hb5, hc5, -, -, -, -, -⟩ := lowerHexChar_facts c5 k5
    obtain ⟨d6, hd6, hb6, hc6, hw6, -, -, -, -⟩ := lowerHexChar_facts c6 k6
    have hrm : removeFirstHash ⟨'#' :: [c1, c2, c3, c4, c5, c6]⟩ = ⟨[c1, c2, c3, c4, c5, c6]⟩ := by
      simp [removeFirstHash, dropFirstHash]
    have hparse := parseIntHex_six c1 c2 c3 c4 c5 c6 d1 d2 d3 d4 d5 d6
      hd1 hd2 hd3 hd4 hd5 hd6 hw1 hw6 hm1 hp1 hx2 hX2
    set V : ℕ := ((((d1 * 16 + d2) * 16 + d3) * 16 + d4) * 16 + d5) * 16 + d6 with hV
    have hVlt : V < 4294967296 := by
      rw [hV]
      omega
    have hpat : hexPattern ⟨'#' :: [c1, c2, c3, c4, c5, c6]⟩ = V := by
      unfold hexPattern
      rw [hrm, hparse]
      dsimp only
      omega
    have hch : hexChannels ⟨'#' :: [c1, c2, c3, c4, c5, c6]⟩ =
        (d1 * 16 + d2, d3 * 16 + d4, d5 * 16 + d6) := by
      unfold hexChannels
      rw [hpat]
      refine Prod.ext ?_ (Prod.ext ?_ ?_) <;> dsimp only <;> rw [hV] <;> omega
    rw [tOfDepth_zero]
    show "#" ++ toHexPad2 (lightenChannels _ 0).1 ++ toHexPad2 (lightenChannels _ 0).2.1
        ++ toHexPad2 (lightenChannels _ 0).2.2 = _
    rw [lightenChannels_zero, hch]
    dsimp only
    rw [toHexPad2_two (d1 * 16 + d2) (by omega), toHexPad2_two (d3 * 16 + d4) (by omega),
      toHexPad2_two (d5 * 16 + d6) (by omega)]
    have e1 : (d1 * 16 + d2) / 16 = d1 := by omega
    have e2 : (d1 * 16 + d2) % 16 = d2 := by omega
    have e3 : (d3 * 16 + d4) / 16 = d3 := by omega
    have e4 : (d3 * 16 + d4) % 16 = d4 := by omega
    have e5 : (d5 * 16 + d6) / 16 = d5 := by omega
    have e6 : (d5 * 16 + d6) % 16 = d6 := by omega
    rw [e1, e2, e3, e4, e5, e6, hc1, hc2, hc3, hc4, hc5, hc6]
    rfl

/-- Witness for the amended C7 on a lowercase rendering of the component's
base color. -/
theorem lighten_depth_zero_identity_witness :
    lighten "#17bebb" (tOfDepth 0) = "#17bebb" :=
  lighten_depth_zero_identity "#17bebb" (by decide)

/-- C7 counterexample: the gradient at depth 0 applied to the component's
actual base color `"#17BEBB"` returns `"#17bebb"`, which differs from the
base string because the printer emits lowercase digits. -/
theorem lighten_depth_zero_case_cex :
    lighten "#17BEBB" (tOfDepth 0) = "#17bebb" ∧ "#17bebb" ≠ "#17BEBB" := by
  constructor
  · rw [tOfDepth_zero]
    show "#" ++ toHexPad2 (lightenChannels _ 0).1 ++ toHexPad2 (lightenChannels _ 0).2.1
        ++ toHexPad2 (lightenChannels _ 0).2.2 = _
    rw [lightenChannels_zero]
    have hch : hexChannels "#17BEBB" = (23, 190, 187) := by decide
    rw [hch]
    decide
  · decide

/-- C2 counterexample: the Gas Value Resolver is not non-negative — on a
node whose `gasUsed` holds the finite number -5 it returns -5, a negative
value. -/
theorem gasUsedNum_negative_cex :
    gasUsedNum gasNodeNeg = -5 ∧ gasUsedNum gasNodeNeg < 0 := by
  refine ⟨rfl, ?_⟩
  have h : gasUsedNum gasNodeNeg = -5 := rfl
  rw [h]
  norm_num

/-- C2 amended: the resolver is total, reads the first non-nullish key among
`gasUsed`, `gas_used`, `gas` in that fixed priority order, coerces it to a
number and returns 0 when the coercion is not finite; the three example
inputs behave as stated; the result equals the finite coercion when there is
one — hence it is non-negative whenever that coercion is non-negative, but
it can be negative for a negative finite gas field. -/
theorem gasUsedNum_priority_and_defaults :
    (gasUsedNum gasNodeStr = 0 ∧ gasUsedNum gasNodeSnake = 21000 ∧ gasUsedNum gasNodeBoth = 21000)
    ∧ (∀ t : TraceNode,
        (isNullish t.gasUsed = false → gasUsedNum t = numOrZero t.gasUsed)
        ∧ (isNullish t.gasUsed = true → isNullish t.gas_used = false →
            gasUsedNum t = numOrZero t.gas_used)
        ∧ (isNullish t.gasUsed = true → isNullish t.gas_used = true →
            gasUsedNum t = numOrZero t.gas))
    ∧ (∀ t : TraceNode,
        toNumber (jsCoalesce t.gasUsed (jsCoalesce t.gas_used t.gas)) = none → gasUsedNum t = 0)
    ∧ (∀ (t : TraceNode) (q : ℚ),
        toNumber (jsCoalesce t.gasUsed (jsCoalesce t.gas_used t.gas)) = some q →
          gasUsedNum t = q ∧ (0 ≤ q → 0 ≤ gasUsedNum t)) := by
  refine ⟨⟨rfl, rfl, rfl⟩, ?_, ?_, ?_⟩
  · intro t
    refine ⟨fun h1 => ?_, fun h1 h2 => ?_, fun h1 h2 => ?_⟩
    · simp [gasUsedNum, jsCoalesce, h1]
    · simp [gasUsedNum, jsCoalesce, h1, h2]
    · simp [gasUsedNum, jsCoalesce, h1, h2]
  · intro t h
    simp [gasUsedNum, numOrZero, h]
  · intro t q h
    have he : gasUsedNum t = q := by simp [gasUsedNum, numOrZero, h]
    exact ⟨he, fun hq => he ▸ hq⟩

/-- Witness for the amended C2: the priority clause applied at the
two-field node and the non-negativity clause applied at the snake-case
node. -/
theorem gasUsedNum_priority_witness :
    gasUsedNum gasNodeBoth = numOrZero gasNodeBoth.gasUsed ∧ 0 ≤ gasUsedNum gasNodeSnake :=
  ⟨(gasUsedNum_priority_and_defaults.2.1 gasNodeBoth).1 (by decide),
   (gasUsedNum_priority_and_defaults.2.2.2 gasNodeSnake 21000 rfl).2 (by norm_num)⟩
example : gasUsedNum (.mk none none none none none .undef (.num 21000) .undef none none) = 21000 := by decide
example : functionDisplay (.mk none none none none (some "") .undef .undef .undef none none) = "fallback()" := by decide
example : labelBase (.mk (some "foo") none (some "0x12345678") none none .undef .undef .undef none none) = "foo" := by decide
example : nivoData .absent .absent = .mk "" none (some []) := by rfl
example : getDepth (.mk "" none (some [])) 1 = 1 := by rfl
example :
    nivoData (.arr [.mk none none none none none (.num 5) .undef .undef none none]) .absent =
      .mk "fallback() - 5 GAS" (some 5) none := by rfl
example : hexChannels "#17BEBB" = (23, 190, 187) := by decide
example : toHexPad2 (23 : ℤ) = "17" := by decide

/-- Every extracted channel is an 8-bit value. -/
theorem hexChannels_le (hex : String) :
    (hexChannels hex).1 ≤ 255 ∧ (hexChannels hex).2.1 ≤ 255 ∧ (hexChannels hex).2.2 ≤ 255 := by
  unfold hexChannels
  dsimp only
  refine ⟨?_, ?_, ?_⟩ <;> omega

/-- A blended channel is monotone in the blend amount when the base channel
is an 8-bit value. -/
theorem lightenChannel_mono (c : ℕ) (hc : c ≤ 255) {t1 t2 : ℚ} (h : t1 ≤ t2) :
    lightenChannel c t1 ≤ lightenChannel c t2 := by
  unfold lightenChannel jsRound
  apply Int.floor_le_floor
  have hcq : (c : ℚ) ≤ 255 := by exact_mod_cast hc
  have hprod : 0 ≤ (255 - (c : ℚ)) * (t2 - t1) :=
    mul_nonneg (by linarith) (by linarith)
  linarith

/-- The blend factor is monotone in the renderer depth. -/
theorem tOfDepth_mono {d1 d2 : ℕ} (h : d1 ≤ d2) : tOfDepth d1 ≤ tOfDepth d2 := by
  unfold tOfDepth
  have hc : (d1 : ℚ) ≤ (d2 : ℚ) := by exact_mod_cast h
  exact min_le_min (by linarith) le_rfl

/-- The blend factor saturates at 4/5 from depth 7 on. -/
theorem tOfDepth_sat (d : ℕ) (h : 7 ≤ d) : tOfDepth d = 8 / 10 := by
  unfold tOfDepth
  have hc : (7 : ℚ) ≤ (d : ℚ) := by exact_mod_cast h
  exact min_eq_right (by linarith)

/-- C8: for every base color string each of the three output channels is
non-decreasing in the renderer depth, and from depth 7 on the blend factor
is capped at 0.8, so the output color string is identical to the depth-7
color. -/
theorem lighten_monotone_and_saturates (hex : String) (d1 d2 : ℕ) :
    (d1 ≤ d2 →
      (lightenChannels hex (tOfDepth d1)).1 ≤ (lightenChannels hex (tOfDepth d2)).1 ∧
      (lightenChannels hex (tOfDepth d1)).2.1 ≤ (lightenChannels hex (tOfDepth d2)).2.1 ∧
      (lightenChannels hex (tOfDepth d1)).2.2 ≤ (lightenChannels hex (tOfDepth d2)).2.2)
    ∧ (7 ≤ d1 → lighten hex (tOfDepth d1) = lighten hex (tOfDepth 7)) := by
  constructor
  · intro h
    have ht := tOfDepth_mono h
    have hc := hexChannels_le hex
    exact ⟨lightenChannel_mono _ hc.1 ht, lightenChannel_mono _ hc.2.1 ht,
      lightenChannel_mono _ hc.2.2 ht⟩
  · intro h
    rw [tOfDepth_sat d1 h, tOfDepth_sat 7 (le_refl 7)]

/-- Witness for C8: channel monotonicity from depth 0 to depth 7 and color
saturation at depth 9, on the component's base color. -/
theorem lighten_monotone_witness :
    (lightenChannels "#17BEBB" (tOfDepth 0)).1 ≤ (lightenChannels "#17BEBB" (tOfDepth 7)).1 ∧
      lighten "#17BEBB" (tOfDepth 9) = lighten "#17BEBB" (tOfDepth 7) :=
  ⟨((lighten_monotone_and_saturates "#17BEBB" 0 7).1 (by decide)).1,
   (lighten_monotone_and_saturates "#17BEBB" 9 0).2 (by decide)⟩

end GasProfile
